import Mathlib

/-!
Shallow embedding of the durable task-queue subsystem of the
media-upload-system repository: the SQLite-backed task store
(`storage/queue.go`), the queue dispatcher (`worker/pool.go`,
`QueueManager.processNextTask`) and the worker pool loop
(`worker/pool.go`, `Pool.worker`).

Modelling conventions:
* A SQLite row of the `queue` table is a `QueueItem`; the table is a
  `Store` holding the rows in insertion order plus the AUTOINCREMENT
  counter.
* Timestamps (`CURRENT_TIMESTAMP`, values of `created_at`, `updated_at`,
  `processed_at`) are `Nat` seconds on one global clock; SQLite's
  fixed-width `YYYY-MM-DD HH:MM:SS` strings compare lexicographically
  exactly as their underlying instants, so string comparison in SQL is
  `<` on `Nat`.  Every operation that reads the clock takes `now`
  explicitly.
* SQLite `INTEGER` columns (`attempts`, `max_attempts`) are `Int`.
* `json.Marshal` of the payload is modelled by an `Option String`
  argument: `some s` is a successful serialization, `none` a
  serialization failure.
-/

/-- `QueueStatus` from `storage/queue.go`: the four-element status
enumeration `pending | processing | completed | failed`. -/
inductive QueueStatus where
  | pending
  | processing
  | completed
  | failed
deriving DecidableEq, Repr

/-- `QueueItem` from `storage/queue.go`: one row of the `queue` table.
`ttype` is the Go field `Type` (column `type`); `processedAt` is the
nullable `processed_at` column. -/
structure QueueItem where
  id : Nat
  ttype : String
  payload : String
  status : QueueStatus
  attempts : Int
  maxAttempts : Int
  createdAt : Nat
  updatedAt : Nat
  processedAt : Option Nat
deriving DecidableEq, Repr

/-- The `queue` table: rows in insertion (rowid) order, plus the
AUTOINCREMENT counter for the next `id` (`INTEGER PRIMARY KEY
AUTOINCREMENT` starts at 1). -/
structure Store where
  rows : List QueueItem
  nextId : Nat
deriving DecidableEq, Repr

/-- The empty table produced by `InitQueueTable`. -/
def emptyStore : Store := { rows := [], nextId := 1 }

/-- `AddToQueue` (`storage/queue.go`): serialize the payload (`mp`),
then `INSERT INTO queue (type, payload, status, max_attempts,
updated_at) VALUES (?, ?, 'pending', ?, CURRENT_TIMESTAMP)`; the
omitted columns take their schema defaults `attempts = 0`,
`created_at = CURRENT_TIMESTAMP`, `processed_at = NULL`.  On
serialization failure the function returns the error before touching
the database.  The returned `Nat` is `LastInsertId`. -/
def addToQueue (st : Store) (taskType : String) (mp : Option String)
    (maxAttempts : Int) (now : Nat) : Store × Except String Nat :=
  match mp with
  | none => (st, Except.error "erreur lors de la serialisation du payload")
  | some pj =>
      ({ rows := st.rows ++
            [{ id := st.nextId, ttype := taskType, payload := pj,
               status := QueueStatus.pending, attempts := 0,
               maxAttempts := maxAttempts, createdAt := now,
               updatedAt := now, processedAt := none }],
         nextId := st.nextId + 1 },
       Except.ok st.nextId)

/-- The `WHERE` clause of `GetNextQueueItem`:
`status = 'pending' OR (status = 'failed' AND attempts < max_attempts)`. -/
def eligible (r : QueueItem) : Prop :=
  r.status = QueueStatus.pending ∨
    (r.status = QueueStatus.failed ∧ r.attempts < r.maxAttempts)

instance : DecidablePred eligible := fun r => by
  unfold eligible; infer_instance

/-- `GetNextQueueItem` (`storage/queue.go`): `SELECT … FROM queue WHERE
status = 'pending' OR (status = 'failed' AND attempts < max_attempts)
ORDER BY created_at ASC LIMIT 1`, returning `none` on `sql.ErrNoRows`.
`List.argmin` picks an element with minimal `created_at` among the
rows passing the filter (first such row on ties), which is exactly the
single row produced by `ORDER BY created_at ASC LIMIT 1`. -/
def getNextQueueItem (st : Store) : Option QueueItem :=
  (st.rows.filter (fun r => decide (eligible r))).argmin (·.createdAt)

/-- The row update of `MarkQueueItemProcessing`:
`SET status = 'processing', attempts = attempts + 1,
updated_at = CURRENT_TIMESTAMP`. -/
def setProcessing (now : Nat) (r : QueueItem) : QueueItem :=
  { r with status := QueueStatus.processing, attempts := r.attempts + 1,
           updatedAt := now }

/-- `MarkQueueItemProcessing` (`storage/queue.go`): `UPDATE queue SET
status = 'processing', attempts = attempts + 1, updated_at =
CURRENT_TIMESTAMP WHERE id = ?`.  No status guard: every row whose
`id` matches is updated, and a missing `id` matches zero rows. -/
def markQueueItemProcessing (st : Store) (i : Nat) (now : Nat) : Store :=
  { st with rows := st.rows.map (fun r => if r.id = i then setProcessing now r else r) }

/-- The row update of `MarkQueueItemCompleted`: `SET status =
'completed', processed_at = CURRENT_TIMESTAMP, updated_at =
CURRENT_TIMESTAMP`. -/
def setCompleted (now : Nat) (r : QueueItem) : QueueItem :=
  { r with status := QueueStatus.completed, processedAt := some now,
           updatedAt := now }

/-- `MarkQueueItemCompleted` (`storage/queue.go`): `UPDATE queue SET
status = 'completed', processed_at = CURRENT_TIMESTAMP, updated_at =
CURRENT_TIMESTAMP WHERE id = ?`. -/
def markQueueItemCompleted (st : Store) (i : Nat) (now : Nat) : Store :=
  { st with rows := st.rows.map (fun r => if r.id = i then setCompleted now r else r) }

/-- The row update of `MarkQueueItemFailed`: `SET status = 'failed',
updated_at = CURRENT_TIMESTAMP`.  Note that `processed_at` is left
untouched. -/
def setFailed (now : Nat) (r : QueueItem) : QueueItem :=
  { r with status := QueueStatus.failed, updatedAt := now }

/-- `MarkQueueItemFailed` (`storage/queue.go`): `UPDATE queue SET
status = 'failed', updated_at = CURRENT_TIMESTAMP WHERE id = ?`. -/
def markQueueItemFailed (st : Store) (i : Nat) (now : Nat) : Store :=
  { st with rows := st.rows.map (fun r => if r.id = i then setFailed now r else r) }

/-- The `WHERE` clause of `ResetStuckQueueItems`: `status =
'processing' AND updated_at < thirtyMinutesAgo`, where
`thirtyMinutesAgo = now - 30min` (truncated `Nat` subtraction stands
in for clock arithmetic; all scenarios use `now ≥ 1800`). -/
def stuck (now : Nat) (r : QueueItem) : Prop :=
  r.status = QueueStatus.processing ∧ r.updatedAt < now - 1800

instance (now : Nat) : DecidablePred (stuck now) := fun r => by
  unfold stuck; infer_instance

/-- `ResetStuckQueueItems` (`storage/queue.go`): `UPDATE queue SET
status = 'pending' WHERE status = 'processing' AND updated_at < ?`
with the cutoff `time.Now() - 30min`.  Only `status` is written —
`attempts` and `updated_at` are left as they are.  The second
component is `RowsAffected`. -/
def resetStuckQueueItems (st : Store) (now : Nat) : Store × Nat :=
  ({ st with rows := st.rows.map (fun r =>
        if decide (stuck now r) then { r with status := QueueStatus.pending } else r) },
   (st.rows.filter (fun r => decide (stuck now r))).length)

/-- The SQL comparison `processed_at < cutoff`: a NULL `processed_at`
never satisfies it. -/
def processedBefore (cutoff : Nat) (r : QueueItem) : Bool :=
  match r.processedAt with
  | some t => decide (t < cutoff)
  | none => false

/-- The `WHERE` clause of `CleanupOldCompletedItems`: `status =
'completed' AND processed_at < cutoff`. -/
def cleanupHit (cutoff : Nat) (r : QueueItem) : Prop :=
  r.status = QueueStatus.completed ∧ processedBefore cutoff r = true

instance (cutoff : Nat) : DecidablePred (cleanupHit cutoff) := fun r => by
  unfold cleanupHit; infer_instance

/-- `CleanupOldCompletedItems` (`storage/queue.go`): `DELETE FROM queue
WHERE status = 'completed' AND processed_at < cutoffDate`, with
`cutoffDate = time.Now().AddDate(0, 0, -days)`, i.e. `now - days·86400`
seconds.  The second component is `RowsAffected`. -/
def cleanupOldCompletedItems (st : Store) (days now : Nat) : Store × Nat :=
  let cutoff := now - days * 86400
  ({ st with rows := st.rows.filter (fun r => ! decide (cleanupHit cutoff r)) },
   (st.rows.filter (fun r => decide (cleanupHit cutoff r))).length)

/-- `QueueManager.processNextTask` (`worker/pool.go`): one poll tick of
the dispatcher.  `handlers` is the handler registry
(`qm.handlers : map[string]func`); a handler is modelled by the
success/failure outcome of its invocation on the payload
(`String → Bool`, `true` = nil error).  The tick claims
`GetNextQueueItem`, calls `MarkQueueItemProcessing`, then either fails
the task when no handler is registered for its type, or runs the
handler and calls `MarkQueueItemCompleted` on success /
`MarkQueueItemFailed` on handler error.  The pool job is executed here
synchronously, which is the observable store effect of the dispatched
job once it runs. -/
def processNextTask (handlers : String → Option (String → Bool))
    (st : Store) (now : Nat) : Store :=
  match getNextQueueItem st with
  | none => st
  | some item =>
      let st1 := markQueueItemProcessing st item.id now
      match handlers item.ttype with
      | none => markQueueItemFailed st1 item.id now
      | some h =>
          if h item.payload then markQueueItemCompleted st1 item.id now
          else markQueueItemFailed st1 item.id now

/-- The dispatcher protocol (spec §4.3, `worker/pool.go`) as a step
relation on stores.  A step is one of: a producer `AddToQueue` call
with a serializable payload; the dispatcher claiming the task returned
by `GetNextQueueItem` and marking it processing; the dispatched job
reporting success (`MarkQueueItemCompleted`) or failure
(`MarkQueueItemFailed`) for a task the dispatcher holds in
`processing` (the only tasks whose outcome a job ever reports — a
crash before the report simply contributes no step);
`ResetStuckQueueItems` at startup; and the periodic
`CleanupOldCompletedItems`. -/
inductive Step : Store → Store → Prop where
  | enqueue (st : Store) (ty pj : String) (maxA : Int) (now : Nat) :
      Step st (addToQueue st ty (some pj) maxA now).1
  | claim (st : Store) (item : QueueItem) (now : Nat) :
      getNextQueueItem st = some item →
      Step st (markQueueItemProcessing st item.id now)
  | complete (st : Store) (i now : Nat) :
      (∀ r ∈ st.rows, r.id = i → r.status = QueueStatus.processing) →
      Step st (markQueueItemCompleted st i now)
  | failed (st : Store) (i now : Nat) :
      (∀ r ∈ st.rows, r.id = i → r.status = QueueStatus.processing) →
      Step st (markQueueItemFailed st i now)
  | recover (st : Store) (now : Nat) :
      Step st (resetStuckQueueItems st now).1
  | cleanup (st : Store) (days now : Nat) :
      Step st (cleanupOldCompletedItems st days now).1

/-- Store states reachable from the empty table by the dispatcher
protocol. -/
def Reachable (st : Store) : Prop :=
  Relation.ReflTransGen Step emptyStore st

/-- The dispatcher protocol restricted for the amended C4: no
`ResetStuckQueueItems` step, and every enqueue uses
`max_attempts ≥ 1`. -/
inductive StepNR : Store → Store → Prop where
  | enqueue (st : Store) (ty pj : String) (maxA : Int) (now : Nat) :
      1 ≤ maxA →
      StepNR st (addToQueue st ty (some pj) maxA now).1
  | claim (st : Store) (item : QueueItem) (now : Nat) :
      getNextQueueItem st = some item →
      StepNR st (markQueueItemProcessing st item.id now)
  | complete (st : Store) (i now : Nat) :
      (∀ r ∈ st.rows, r.id = i → r.status = QueueStatus.processing) →
      StepNR st (markQueueItemCompleted st i now)
  | failed (st : Store) (i now : Nat) :
      (∀ r ∈ st.rows, r.id = i → r.status = QueueStatus.processing) →
      StepNR st (markQueueItemFailed st i now)
  | cleanup (st : Store) (days now : Nat) :
      StepNR st (cleanupOldCompletedItems st days now).1

/-- Store states reachable from the empty table without stuck-task
recovery, all enqueues with `max_attempts ≥ 1`. -/
def ReachableNR (st : Store) : Prop :=
  Relation.ReflTransGen StepNR emptyStore st

/-- Bookkeeping invariant of the AUTOINCREMENT id column: every row id
is below the counter, and ids are pairwise distinct. -/
def IdOk (st : Store) : Prop :=
  (∀ r ∈ st.rows, r.id < st.nextId) ∧
    st.rows.Pairwise (fun a b => a.id ≠ b.id)

/-- Per-row attempts bookkeeping used for the amended C4: the attempt
counter is within the ceiling, the ceiling is positive, and a Pending
row is untouched (`attempts = 0`) — which holds exactly because
`ResetStuckQueueItems` is excluded. -/
def AttRow (r : QueueItem) : Prop :=
  r.attempts ≤ r.maxAttempts ∧ 1 ≤ r.maxAttempts ∧
    (r.status = QueueStatus.pending → r.attempts = 0)

/-- Per-row statement of C6: `processed_at` is non-null iff the row is
Completed. -/
def RowProcInv (r : QueueItem) : Prop :=
  r.processedAt ≠ none ↔ r.status = QueueStatus.completed

/-! ### C1: `GetNextQueueItem` selection -/

/-- The first Pending task of the C1 witness scenario (created at `t0 = 10`). -/
def c1T1 : QueueItem :=
  { id := 1, ttype := "u", payload := "p1", status := QueueStatus.pending,
    attempts := 0, maxAttempts := 3, createdAt := 10, updatedAt := 10,
    processedAt := none }

/-- The second Pending task of the C1 witness scenario (created at `t0 + 1`). -/
def c1T2 : QueueItem :=
  { id := 2, ttype := "u", payload := "p2", status := QueueStatus.pending,
    attempts := 0, maxAttempts := 3, createdAt := 11, updatedAt := 11,
    processedAt := none }

/-- The C1 witness store: two Pending tasks, `c1T1` older than `c1T2`. -/
def c1Store : Store := { rows := [c1T2, c1T1], nextId := 3 }

/-! ### C2: retry ceiling for a handler that always fails -/

/-- C2 handler registry: a handler is registered for type `"upload"`
and fails (returns a non-nil error) on every invocation. -/
def c2Handlers : String → Option (String → Bool) :=
  fun t => if t = "upload" then some (fun _ => false) else none

/-- The C2 task: enqueued with `max_attempts = 3`, fresh (`attempts = 0`). -/
def c2Task : QueueItem :=
  { id := 1, ttype := "upload", payload := "p42",
    status := QueueStatus.pending, attempts := 0, maxAttempts := 3,
    createdAt := 0, updatedAt := 0, processedAt := none }

/-- The C2 initial store: just the fresh task. -/
def c2Init : Store := { rows := [c2Task], nextId := 2 }

/-- One dispatcher poll tick of the C2 scenario. -/
def c2Step (st : Store) : Store := processNextTask c2Handlers st 7

/-- The store after `n` poll ticks of the C2 scenario. -/
def c2States (n : Nat) : Store := c2Step^[n] c2Init

/-! ### C3: a task type with no registered handler -/

/-- C3 handler registry: no handler is registered for any type. -/
def c3Handlers : String → Option (String → Bool) := fun _ => none

/-- The C3 task: type `"nohandler"`, fresh, `max_attempts = 3`. -/
def c3Task : QueueItem :=
  { id := 1, ttype := "nohandler", payload := "pl",
    status := QueueStatus.pending, attempts := 0, maxAttempts := 3,
    createdAt := 0, updatedAt := 0, processedAt := none }

/-- The C3 initial store: just the handler-less task. -/
def c3Init : Store := { rows := [c3Task], nextId := 2 }

/-- One dispatcher poll tick of the C3 scenario. -/
def c3Step (st : Store) : Store := processNextTask c3Handlers st 9

/-- The store after `n` poll ticks of the C3 scenario. -/
def c3States (n : Nat) : Store := c3Step^[n] c3Init

/-- Combined store invariant for the amended C4: id bookkeeping plus
`AttRow` for every row. -/
def AttInv (st : Store) : Prop :=
  IdOk st ∧ ∀ r ∈ st.rows, AttRow r

/-- Combined store invariant for C6: id bookkeeping plus `RowProcInv`
for every row. -/
def ProcInv (st : Store) : Prop :=
  IdOk st ∧ ∀ r ∈ st.rows, RowProcInv r

/-- C4 counterexample, state 1: one task enqueued with
`max_attempts = 1` at time 0. -/
def c4S1 : Store :=
  { rows := [{ id := 1, ttype := "t", payload := "p",
               status := QueueStatus.pending, attempts := 0,
               maxAttempts := 1, createdAt := 0, updatedAt := 0,
               processedAt := none }],
    nextId := 2 }

/-- The pending row of `c4S1`. -/
def c4RowP : QueueItem :=
  { id := 1, ttype := "t", payload := "p", status := QueueStatus.pending,
    attempts := 0, maxAttempts := 1, createdAt := 0, updatedAt := 0,
    processedAt := none }

/-- C4 counterexample, state 2: the task claimed at time 0
(`attempts = 1 = max_attempts`, Processing). -/
def c4S2 : Store :=
  { rows := [{ id := 1, ttype := "t", payload := "p",
               status := QueueStatus.processing, attempts := 1,
               maxAttempts := 1, createdAt := 0, updatedAt := 0,
               processedAt := none }],
    nextId := 2 }

/-- C4 counterexample, state 3: the crash-interrupted task recovered
to Pending by `ResetStuckQueueItems` at time 2000 (> 30 min later);
`attempts` stays 1. -/
def c4S3 : Store :=
  { rows := [{ id := 1, ttype := "t", payload := "p",
               status := QueueStatus.pending, attempts := 1,
               maxAttempts := 1, createdAt := 0, updatedAt := 0,
               processedAt := none }],
    nextId := 2 }

/-- The recovered pending row of `c4S3`. -/
def c4RowR : QueueItem :=
  { id := 1, ttype := "t", payload := "p", status := QueueStatus.pending,
    attempts := 1, maxAttempts := 1, createdAt := 0, updatedAt := 0,
    processedAt := none }

/-- C4 counterexample, final state: the recovered task reclaimed at
time 2000 — `attempts = 2 > 1 = max_attempts`. -/
def c4Bad : Store :=
  { rows := [{ id := 1, ttype := "t", payload := "p",
               status := QueueStatus.processing, attempts := 2,
               maxAttempts := 1, createdAt := 0, updatedAt := 2000,
               processedAt := none }],
    nextId := 2 }

/-- C4 witness store: one task enqueued with `max_attempts = 3`. -/
def c4WStore : Store := (addToQueue emptyStore "w" (some "q") 3 5).1

/-- The single row of `c4WStore`. -/
def c4WRow : QueueItem :=
  { id := 1, ttype := "w", payload := "q", status := QueueStatus.pending,
    attempts := 0, maxAttempts := 3, createdAt := 5, updatedAt := 5,
    processedAt := none }

/-- C5 counterexample store: one task in Processing, last touched at
time 0. -/
def c5Store : Store :=
  { rows := [{ id := 1, ttype := "t", payload := "p",
               status := QueueStatus.processing, attempts := 1,
               maxAttempts := 3, createdAt := 0, updatedAt := 0,
               processedAt := none }],
    nextId := 2 }

/-- The row of `markQueueItemProcessing c5Store 1 7`, used in the C5
witness. -/
def c5MRow : QueueItem :=
  { id := 1, ttype := "t", payload := "p",
    status := QueueStatus.processing, attempts := 2, maxAttempts := 3,
    createdAt := 0, updatedAt := 7, processedAt := none }

/-- C6 witness chain, state 1: one task enqueued at time 0. -/
def c6S1 : Store :=
  { rows := [{ id := 1, ttype := "t", payload := "p",
               status := QueueStatus.pending, attempts := 0,
               maxAttempts := 3, createdAt := 0, updatedAt := 0,
               processedAt := none }],
    nextId := 2 }

/-- The pending row of `c6S1`. -/
def c6RowP : QueueItem :=
  { id := 1, ttype := "t", payload := "p", status := QueueStatus.pending,
    attempts := 0, maxAttempts := 3, createdAt := 0, updatedAt := 0,
    processedAt := none }

/-- C6 witness chain, state 2: the task claimed at time 4. -/
def c6S2 : Store :=
  { rows := [{ id := 1, ttype := "t", payload := "p",
               status := QueueStatus.processing, attempts := 1,
               maxAttempts := 3, createdAt := 0, updatedAt := 4,
               processedAt := none }],
    nextId := 2 }

/-- C6 witness chain, state 3: the task completed at time 9. -/
def c6S3 : Store :=
  { rows := [{ id := 1, ttype := "t", payload := "p",
               status := QueueStatus.completed, attempts := 1,
               maxAttempts := 3, createdAt := 0, updatedAt := 9,
               processedAt := some 9 }],
    nextId := 2 }

/-- The completed row of `c6S3`. -/
def c6Row : QueueItem :=
  { id := 1, ttype := "t", payload := "p", status := QueueStatus.completed,
    attempts := 1, maxAttempts := 3, createdAt := 0, updatedAt := 9,
    processedAt := some 9 }

/-- C7 base store: one task in Processing at time 50, about to be
completed. -/
def c7Base : Store :=
  { rows := [{ id := 1, ttype := "t", payload := "p",
               status := QueueStatus.processing, attempts := 1,
               maxAttempts := 3, createdAt := 0, updatedAt := 50,
               processedAt := none }],
    nextId := 2 }

/-- The row of `markQueueItemCompleted c7Base 1 100`, used in the C7
witness. -/
def c7CRow : QueueItem :=
  { id := 1, ttype := "t", payload := "p",
    status := QueueStatus.completed, attempts := 1, maxAttempts := 3,
    createdAt := 0, updatedAt := 100, processedAt := some 100 }

/-- Outcome of one job submitted to the pool, as seen by the
`err := task()` call in `Pool.worker` (`worker/pool.go`): the job
returned nil, returned a non-nil error, or panicked. -/
inductive TaskOutcome where
  | ok
  | err
  | panicked
deriving DecidableEq, Repr

/-- `Pool.worker` (`worker/pool.go`): the executor loop
`for task := range p.tasks { … err := task() … }` run over the finite
sequence of jobs delivered on the channel.  The loop body contains no
`recover()` (there is none anywhere in the repository), so a panic in
`task()` unwinds out of the loop and kills the worker goroutine; an
error return is only logged and the loop continues.  The result is
(number of jobs started, whether the loop reached its normal end). -/
def workerExec : List TaskOutcome → Nat × Bool
  | [] => (0, true)
  | t :: rest =>
      match t with
      | TaskOutcome.panicked => (1, false)
      | _ =>
          let p := workerExec rest
          (p.1 + 1, p.2)

/-- C10 store: a single task with id 1 (so id 2 does not exist). -/
def c10Store : Store :=
  { rows := [{ id := 1, ttype := "t", payload := "p",
               status := QueueStatus.pending, attempts := 0,
               maxAttempts := 3, createdAt := 0, updatedAt := 0,
               processedAt := none }],
    nextId := 2 }

/-! ### Theorems -/

/-- If `GetNextQueueItem` returns a task, that task is a row of the
store and satisfies the eligibility clause. -/
theorem getNext_mem_eligible {st : Store} {item : QueueItem}
    (h : getNextQueueItem st = some item) :
    item ∈ st.rows ∧ eligible item := by
  have hmem : item ∈ st.rows.filter (fun r => decide (eligible r)) :=
    List.argmin_mem h
  rcases List.mem_filter.mp hmem with ⟨hrows, helig⟩
  exact ⟨hrows, of_decide_eq_true helig⟩

/-- In a list with pairwise-distinct ids, two members with the same id
are the same row. -/
theorem uniqueId_eq {l : List QueueItem}
    (hp : l.Pairwise (fun a b => a.id ≠ b.id)) {r s : QueueItem}
    (hr : r ∈ l) (hs : s ∈ l) (h : r.id = s.id) : r = s := by
  induction l with
  | nil => cases hr
  | cons x xs ih =>
      rcases List.pairwise_cons.mp hp with ⟨hx, hxs⟩
      rcases List.mem_cons.mp hr with rfl | hr'
      · rcases List.mem_cons.mp hs with rfl | hs'
        · rfl
        · exact absurd h (hx s hs')
      · rcases List.mem_cons.mp hs with rfl | hs'
        · exact absurd h.symm (hx r hr')
        · exact ih hxs hr' hs'

/-- `IdOk` survives any per-row update that preserves ids. -/
theorem idOk_map {st : Store} {u : QueueItem → QueueItem}
    (hu : ∀ r, (u r).id = r.id) (h : IdOk st) :
    IdOk (Store.mk (st.rows.map u) st.nextId) := by
  constructor
  · intro r' hr'
    rcases List.mem_map.mp hr' with ⟨r, hr, rfl⟩
    rw [hu]
    exact h.1 r hr
  · exact h.2.map u (fun a b hab => by rw [hu, hu]; exact hab)

/-- `IdOk` survives appending a fresh row carrying the counter id. -/
theorem idOk_append {st : Store} {x : QueueItem}
    (hx : x.id = st.nextId) (h : IdOk st) :
    IdOk (Store.mk (st.rows ++ [x]) (st.nextId + 1)) := by
  constructor
  · intro r hr
    rcases List.mem_append.mp hr with h1 | h2
    · exact Nat.lt_succ_of_lt (h.1 r h1)
    · rcases List.mem_singleton.mp h2 with rfl
      rw [hx]
      exact Nat.lt_succ_self _
  · rw [List.pairwise_append]
    refine ⟨h.2, List.pairwise_singleton _ _, ?_⟩
    intro a ha b hb
    rcases List.mem_singleton.mp hb with rfl
    rw [hx]
    exact Nat.ne_of_lt (h.1 a ha)

/-- `IdOk` survives deleting rows. -/
theorem idOk_filter {st : Store} (p : QueueItem → Bool) (h : IdOk st) :
    IdOk (Store.mk (st.rows.filter p) st.nextId) :=
  ⟨fun r hr => h.1 r (List.mem_filter.mp hr).1,
   h.2.sublist (List.filter_sublist _)⟩

/-- C1.  `GetNextQueueItem` returns `none` iff no task is eligible
(`status = pending`, or `status = failed` with `attempts <
max_attempts`); when it returns a task, that task is an eligible row
of the store with the smallest `created_at` among all eligible rows,
and its status is never `processing` or `completed`. -/
theorem c1_claimNext_spec (st : Store) :
    (getNextQueueItem st = none ↔ ∀ r ∈ st.rows, ¬ eligible r) ∧
    (∀ item, getNextQueueItem st = some item →
      item ∈ st.rows ∧ eligible item ∧
      (∀ r ∈ st.rows, eligible r → item.createdAt ≤ r.createdAt) ∧
      item.status ≠ QueueStatus.processing ∧
      item.status ≠ QueueStatus.completed) := by
  constructor
  · unfold getNextQueueItem
    rw [List.argmin_eq_none, List.filter_eq_nil_iff]
    simp
  · intro item h
    have hmem : item ∈ st.rows.filter (fun r => decide (eligible r)) :=
      List.argmin_mem h
    rcases List.mem_filter.mp hmem with ⟨hrows, helig⟩
    have helig' : eligible item := of_decide_eq_true helig
    refine ⟨hrows, helig', ?_, ?_, ?_⟩
    · intro r hr hre
      exact List.le_of_mem_argmin
        (List.mem_filter.mpr ⟨hr, decide_eq_true hre⟩) h
    · rcases helig' with h1 | ⟨h1, _⟩ <;> simp [h1]
    · rcases helig' with h1 | ⟨h1, _⟩ <;> simp [h1]

/-- C1 witness: on the concrete two-task store `c1Store`, the claim
instantiates to the FIFO scenario — the older task `c1T1` is returned,
is eligible, and has minimal `created_at`. -/
theorem c1_claimNext_spec_witness :
    c1T1 ∈ c1Store.rows ∧ eligible c1T1 ∧
    c1T1.createdAt ≤ c1T2.createdAt ∧
    c1T1.status ≠ QueueStatus.processing ∧
    c1T1.status ≠ QueueStatus.completed := by
  obtain ⟨h1, h2, h3, h4, h5⟩ :=
    (c1_claimNext_spec c1Store).2 c1T1 (by decide)
  exact ⟨h1, h2, h3 c1T2 (by decide) (by decide), h4, h5⟩

/-- C2.  With `max_attempts = 3` and an always-failing handler, the
dispatcher claims the task on each of the first three ticks (so it is
started exactly three times, `attempts` reaching 1, 2, 3, each start
followed by `MarkQueueItemFailed`), and from the third tick on the
store never changes again and `GetNextQueueItem` never returns the
task. -/
theorem c2_retry_ceiling (n : Nat) :
    (getNextQueueItem (c2States 0)).isSome = true ∧
    (getNextQueueItem (c2States 1)).isSome = true ∧
    (getNextQueueItem (c2States 2)).isSome = true ∧
    (c2States 1).rows.map (fun r => (r.status, r.attempts)) =
      [(QueueStatus.failed, 1)] ∧
    (c2States 2).rows.map (fun r => (r.status, r.attempts)) =
      [(QueueStatus.failed, 2)] ∧
    (c2States 3).rows.map (fun r => (r.status, r.attempts)) =
      [(QueueStatus.failed, 3)] ∧
    (3 ≤ n → c2States n = c2States 3 ∧
      getNextQueueItem (c2States n) = none) := by
  refine ⟨by decide, by decide, by decide, by decide, by decide, by decide, ?_⟩
  intro hn
  have hfix : ∀ m, 3 ≤ m → c2States m = c2States 3 := by
    intro m hm
    induction m, hm using Nat.le_induction with
    | base => rfl
    | succ k hk ih =>
        have : c2States (k + 1) = c2Step (c2States k) :=
          Function.iterate_succ_apply' c2Step k c2Init
        rw [this, ih]
        decide
  exact ⟨hfix n hn, by rw [hfix n hn]; decide⟩

/-- C2 witness: at `n = 5` the store equals the tick-3 store and no
task is claimable. -/
theorem c2_retry_ceiling_witness :
    c2States 5 = c2States 3 ∧ getNextQueueItem (c2States 5) = none :=
  (c2_retry_ceiling 5).2.2.2.2.2.2 (by decide)

/-- C3 counterexample.  After the first dispatch of a task whose type
has no registered handler (`attempts` now 1, `max_attempts` 3, status
Failed), `GetNextQueueItem` still returns the task — it is *not*
permanently terminal after that single dispatch, because
`MarkQueueItemFailed` leaves it eligible while
`attempts < max_attempts`. -/
theorem c3_handler_not_found_counterexample :
    (c3States 1).rows.map (fun r => (r.status, r.attempts)) =
      [(QueueStatus.failed, 1)] ∧
    getNextQueueItem (c3States 1) =
      some { id := 1, ttype := "nohandler", payload := "pl",
             status := QueueStatus.failed, attempts := 1, maxAttempts := 3,
             createdAt := 0, updatedAt := 9, processedAt := none } := by
  decide

/-- C3 amended.  A task whose type has no registered handler is marked
Failed on each dispatch without running any handler, but it is *not*
immediately terminal: while `attempts < max_attempts` it is claimed
again on later ticks, and it becomes permanently terminal (the store
fixed, `GetNextQueueItem` never returning it) only once `attempts`
reaches `max_attempts` — here after 3 dispatches. -/
theorem c3_handler_not_found_retries (n : Nat) :
    (getNextQueueItem (c3States 0)).isSome = true ∧
    (getNextQueueItem (c3States 1)).isSome = true ∧
    (getNextQueueItem (c3States 2)).isSome = true ∧
    (c3States 1).rows.map (fun r => (r.status, r.attempts)) =
      [(QueueStatus.failed, 1)] ∧
    (c3States 2).rows.map (fun r => (r.status, r.attempts)) =
      [(QueueStatus.failed, 2)] ∧
    (c3States 3).rows.map (fun r => (r.status, r.attempts)) =
      [(QueueStatus.failed, 3)] ∧
    (3 ≤ n → c3States n = c3States 3 ∧
      getNextQueueItem (c3States n) = none) := by
  refine ⟨by decide, by decide, by decide, by decide, by decide, by decide, ?_⟩
  intro hn
  have hfix : ∀ m, 3 ≤ m → c3States m = c3States 3 := by
    intro m hm
    induction m, hm using Nat.le_induction with
    | base => rfl
    | succ k hk ih =>
        have : c3States (k + 1) = c3Step (c3States k) :=
          Function.iterate_succ_apply' c3Step k c3Init
        rw [this, ih]
        decide
  exact ⟨hfix n hn, by rw [hfix n hn]; decide⟩

/-- C3 amended witness: at `n = 4` the store equals the tick-3 store
and the task is no longer claimable. -/
theorem c3_handler_not_found_retries_witness :
    c3States 4 = c3States 3 ∧ getNextQueueItem (c3States 4) = none :=
  (c3_handler_not_found_retries 4).2.2.2.2.2.2 (by decide)

/-- One protocol step without stuck-recovery preserves the attempts
invariant. -/
theorem stepNR_preserves_attInv {st st' : Store}
    (h : StepNR st st') (hinv : AttInv st) : AttInv st' := by
  obtain ⟨hid, hatt⟩ := hinv
  cases h with
  | enqueue ty pj maxA now hmax =>
      refine ⟨idOk_append rfl hid, ?_⟩
      intro r hr
      rcases List.mem_append.mp hr with h1 | h2
      · exact hatt r h1
      · rcases List.mem_singleton.mp h2 with rfl
        refine ⟨by simpa using by omega, by simpa using hmax, fun _ => rfl⟩
  | claim item now hget =>
      obtain ⟨hmem, helig⟩ := getNext_mem_eligible hget
      refine ⟨idOk_map (fun r => by by_cases hc : r.id = item.id <;>
        simp [hc, setProcessing]) hid, ?_⟩
      intro r' hr'
      rcases List.mem_map.mp hr' with ⟨r, hr, rfl⟩
      by_cases hcase : r.id = item.id
      · have hre : r = item := uniqueId_eq hid.2 hr hmem hcase
        obtain ⟨hle, hmax1, hpz⟩ := hatt r hr
        rw [if_pos hcase]
        refine ⟨?_, by simpa [setProcessing] using hmax1, ?_⟩
        · simp only [setProcessing]
          rcases hre ▸ helig with hp | ⟨hf, hlt⟩
          · have h0 := hpz hp
            omega
          · omega
        · intro hcontra
          simp [setProcessing] at hcontra
      · rw [if_neg hcase]
        exact hatt r hr
  | complete i now hproc =>
      refine ⟨idOk_map (fun r => by by_cases hc : r.id = i <;>
        simp [hc, setCompleted]) hid, ?_⟩
      intro r' hr'
      rcases List.mem_map.mp hr' with ⟨r, hr, rfl⟩
      obtain ⟨hle, hmax1, hpz⟩ := hatt r hr
      by_cases hcase : r.id = i
      · rw [if_pos hcase]
        refine ⟨by simpa [setCompleted] using hle,
                by simpa [setCompleted] using hmax1, ?_⟩
        intro hcontra
        simp [setCompleted] at hcontra
      · rw [if_neg hcase]
        exact ⟨hle, hmax1, hpz⟩
  | failed i now hproc =>
      refine ⟨idOk_map (fun r => by by_cases hc : r.id = i <;>
        simp [hc, setFailed]) hid, ?_⟩
      intro r' hr'
      rcases List.mem_map.mp hr' with ⟨r, hr, rfl⟩
      obtain ⟨hle, hmax1, hpz⟩ := hatt r hr
      by_cases hcase : r.id = i
      · rw [if_pos hcase]
        refine ⟨by simpa [setFailed] using hle,
                by simpa [setFailed] using hmax1, ?_⟩
        intro hcontra
        simp [setFailed] at hcontra
      · rw [if_neg hcase]
        exact ⟨hle, hmax1, hpz⟩
  | cleanup days now =>
      refine ⟨idOk_filter _ hid, ?_⟩
      intro r hr
      exact hatt r (List.mem_filter.mp hr).1

/-- Every store reachable without stuck-recovery satisfies the
attempts invariant. -/
theorem reachableNR_attInv {st : Store} (h : ReachableNR st) :
    AttInv st := by
  induction h with
  | refl =>
      refine ⟨⟨?_, ?_⟩, ?_⟩
      · intro r hr
        cases hr
      · exact List.Pairwise.nil
      · intro r hr
        cases hr
  | tail hab hbc ih => exact stepNR_preserves_attInv hbc ih

/-- C4 counterexample.  The state `c4Bad`, in which the single task
has `attempts = 2 > 1 = max_attempts`, is reachable from the empty
store by the dispatcher protocol: enqueue with `max_attempts = 1`,
claim (attempts 1, Processing), crash + `ResetStuckQueueItems` 30+
minutes later (back to Pending, attempts still 1), claim again
(attempts 2).  So `attempts ≤ max_attempts` does *not* hold in every
reachable state. -/
theorem c4_attempts_counterexample :
    Reachable c4Bad ∧ ∃ r ∈ c4Bad.rows, r.maxAttempts < r.attempts := by
  constructor
  · have h1 : Step emptyStore c4S1 := by
      have h := Step.enqueue emptyStore "t" "p" 1 0
      have e : (addToQueue emptyStore "t" (some "p") 1 0).1 = c4S1 := by decide
      rwa [e] at h
    have h2 : Step c4S1 c4S2 := by
      have h := Step.claim c4S1 c4RowP 0 (by decide)
      have e : markQueueItemProcessing c4S1 c4RowP.id 0 = c4S2 := by decide
      rwa [e] at h
    have h3 : Step c4S2 c4S3 := by
      have h := Step.recover c4S2 2000
      have e : (resetStuckQueueItems c4S2 2000).1 = c4S3 := by decide
      rwa [e] at h
    have h4 : Step c4S3 c4Bad := by
      have h := Step.claim c4S3 c4RowR 2000 (by decide)
      have e : markQueueItemProcessing c4S3 c4RowR.id 2000 = c4Bad := by decide
      rwa [e] at h
    exact Relation.ReflTransGen.tail (Relation.ReflTransGen.tail
      (Relation.ReflTransGen.tail (Relation.ReflTransGen.single h1) h2) h3) h4
  · decide

/-- C4 amended.  (a) In *every* store state, `GetNextQueueItem` never
returns a Failed task whose `attempts` have reached `max_attempts` —
a ceiling-exhausted Failed task undergoes no further automatic
retries.  (b) `attempts ≤ max_attempts` holds for every task in every
state reachable by the dispatcher protocol when `ResetStuckQueueItems`
is never used and every enqueue passes `max_attempts ≥ 1`; with
stuck-recovery the bound can be exceeded (see the counterexample), as
recovery re-pends a Processing task without regard to its attempt
count. -/
theorem c4_attempts_bound :
    (∀ st : Store, ∀ item : QueueItem, getNextQueueItem st = some item →
      ¬(item.status = QueueStatus.failed ∧ item.maxAttempts ≤ item.attempts)) ∧
    (∀ st : Store, ReachableNR st → ∀ r ∈ st.rows, r.attempts ≤ r.maxAttempts) := by
  constructor
  · rintro st item hget ⟨hf, hle⟩
    obtain ⟨-, helig⟩ := getNext_mem_eligible hget
    rcases helig with hp | ⟨-, hlt⟩
    · rw [hp] at hf
      cases hf
    · omega
  · intro st h r hr
    exact ((reachableNR_attInv h).2 r hr).1

/-- C4 amended witness: the concrete one-enqueue store `c4WStore` is
reachable without recovery, and its row satisfies the bound. -/
theorem c4_attempts_bound_witness :
    c4WRow.attempts ≤ c4WRow.maxAttempts :=
  c4_attempts_bound.2 c4WStore
    (Relation.ReflTransGen.single
      (StepNR.enqueue emptyStore "w" "q" 3 5 (by decide)))
    c4WRow (by decide)

/-- A row with NULL `processed_at` and a non-Completed status
satisfies the C6 row invariant. -/
theorem rowProcInv_none {r : QueueItem} (h1 : r.processedAt = none)
    (h2 : r.status ≠ QueueStatus.completed) : RowProcInv r :=
  ⟨fun h => absurd h1 h, fun h => absurd h h2⟩

/-- From the C6 row invariant, a non-Completed row has NULL
`processed_at`. -/
theorem procInv_none_of_not_completed {r : QueueItem} (h : RowProcInv r)
    (h2 : r.status ≠ QueueStatus.completed) : r.processedAt = none := by
  by_contra hne
  exact h2 (h.mp hne)

/-- One dispatcher-protocol step preserves the C6 invariant. -/
theorem step_preserves_procInv {st st' : Store}
    (h : Step st st') (hinv : ProcInv st) : ProcInv st' := by
  obtain ⟨hid, hrow⟩ := hinv
  cases h with
  | enqueue ty pj maxA now =>
      refine ⟨idOk_append rfl hid, ?_⟩
      intro r hr
      rcases List.mem_append.mp hr with h1 | h2
      · exact hrow r h1
      · rcases List.mem_singleton.mp h2 with rfl
        exact rowProcInv_none rfl (by intro h; cases h)
  | claim item now hget =>
      obtain ⟨hmem, helig⟩ := getNext_mem_eligible hget
      have hstat : item.status ≠ QueueStatus.completed := by
        rcases helig with hp | ⟨hf, -⟩
        · rw [hp]
          intro h
          cases h
        · rw [hf]
          intro h
          cases h
      have hnone : item.processedAt = none :=
        procInv_none_of_not_completed (hrow item hmem) hstat
      refine ⟨idOk_map (fun r => by by_cases hc : r.id = item.id <;>
        simp [hc, setProcessing]) hid, ?_⟩
      intro r' hr'
      rcases List.mem_map.mp hr' with ⟨r, hr, rfl⟩
      by_cases hcase : r.id = item.id
      · have hre : r = item := uniqueId_eq hid.2 hr hmem hcase
        rw [if_pos hcase, hre]
        exact rowProcInv_none (by simpa [setProcessing] using hnone)
          (by intro h; simp [setProcessing] at h)
      · rw [if_neg hcase]
        exact hrow r hr
  | complete i now hproc =>
      refine ⟨idOk_map (fun r => by by_cases hc : r.id = i <;>
        simp [hc, setCompleted]) hid, ?_⟩
      intro r' hr'
      rcases List.mem_map.mp hr' with ⟨r, hr, rfl⟩
      by_cases hcase : r.id = i
      · rw [if_pos hcase]
        exact ⟨fun _ => rfl, fun _ => by simp [setCompleted]⟩
      · rw [if_neg hcase]
        exact hrow r hr
  | failed i now hproc =>
      refine ⟨idOk_map (fun r => by by_cases hc : r.id = i <;>
        simp [hc, setFailed]) hid, ?_⟩
      intro r' hr'
      rcases List.mem_map.mp hr' with ⟨r, hr, rfl⟩
      by_cases hcase : r.id = i
      · have hpr : r.status = QueueStatus.processing := hproc r hr hcase
        have hnone : r.processedAt = none :=
          procInv_none_of_not_completed (hrow r hr)
            (by rw [hpr]; intro h; cases h)
        rw [if_pos hcase]
        exact rowProcInv_none (by simpa [setFailed] using hnone)
          (by intro h; simp [setFailed] at h)
      · rw [if_neg hcase]
        exact hrow r hr
  | recover now =>
      refine ⟨idOk_map (fun r => by by_cases hc : decide (stuck now r) = true <;>
        simp [hc]) hid, ?_⟩
      intro r' hr'
      rcases List.mem_map.mp hr' with ⟨r, hr, rfl⟩
      by_cases hcase : decide (stuck now r) = true
      · have hpr : r.status = QueueStatus.processing :=
          (of_decide_eq_true hcase).1
        have hnone : r.processedAt = none :=
          procInv_none_of_not_completed (hrow r hr)
            (by rw [hpr]; intro h; cases h)
        rw [if_pos hcase]
        exact rowProcInv_none (by simpa using hnone) (by intro h; cases h)
      · rw [if_neg hcase]
        exact hrow r hr
  | cleanup days now =>
      refine ⟨idOk_filter _ hid, ?_⟩
      intro r hr
      exact hrow r (List.mem_filter.mp hr).1

/-- Every store reachable by the dispatcher protocol satisfies the C6
invariant. -/
theorem reachable_procInv {st : Store} (h : Reachable st) : ProcInv st := by
  induction h with
  | refl =>
      refine ⟨⟨?_, ?_⟩, ?_⟩
      · intro r hr
        cases hr
      · exact List.Pairwise.nil
      · intro r hr
        cases hr
  | tail hab hbc ih => exact step_preserves_procInv hbc ih

/-- C6.  In every store state reachable by the dispatcher protocol,
every task has `processed_at` non-null exactly when its status is
Completed: `MarkQueueItemCompleted` is the only operation that sets
it, and no reachable interleaving moves a task out of Completed while
leaving `processed_at` set. -/
theorem c6_processed_iff_completed (st : Store) (h : Reachable st) :
    ∀ r ∈ st.rows,
      (r.processedAt ≠ none ↔ r.status = QueueStatus.completed) :=
  fun r hr => (reachable_procInv h).2 r hr

/-- C6 witness: the enqueue→claim→complete chain reaches `c6S3`, whose
row is Completed with `processed_at = some 9`, and the invariant
instantiates there. -/
theorem c6_processed_iff_completed_witness :
    c6Row.processedAt ≠ none ↔ c6Row.status = QueueStatus.completed := by
  have h1 : Step emptyStore c6S1 := by
    have h := Step.enqueue emptyStore "t" "p" 3 0
    have e : (addToQueue emptyStore "t" (some "p") 3 0).1 = c6S1 := by decide
    rwa [e] at h
  have h2 : Step c6S1 c6S2 := by
    have h := Step.claim c6S1 c6RowP 4 (by decide)
    have e : markQueueItemProcessing c6S1 c6RowP.id 4 = c6S2 := by decide
    rwa [e] at h
  have h3 : Step c6S2 c6S3 := by
    have h := Step.complete c6S2 1 9 (by decide)
    have e : markQueueItemCompleted c6S2 1 9 = c6S3 := by decide
    rwa [e] at h
  exact c6_processed_iff_completed c6S3
    (Relation.ReflTransGen.tail
      (Relation.ReflTransGen.tail (Relation.ReflTransGen.single h1) h2) h3)
    c6Row (by decide)

/-- C5 counterexample.  `ResetStuckQueueItems` run at current time
2000 performs the Processing-to-Pending reset on the task of
`c5Store` (a status change), yet leaves `updated_at` at its old value
0 instead of refreshing it to the current time: the reset's `UPDATE`
sets only `status`. -/
theorem c5_reset_updatedAt_counterexample :
    c5Store.rows.map (fun r => (r.status, r.updatedAt)) =
      [(QueueStatus.processing, 0)] ∧
    (resetStuckQueueItems c5Store 2000).1.rows.map
        (fun r => (r.status, r.updatedAt)) =
      [(QueueStatus.pending, 0)] ∧
    (0 : Nat) ≠ 2000 := by
  decide

/-- C5 amended.  `MarkQueueItemProcessing`, `MarkQueueItemCompleted`
and `MarkQueueItemFailed` refresh `updated_at` of the targeted task to
the current time; the Processing-to-Pending reset of
`ResetStuckQueueItems`, by contrast, changes `status` only and leaves
every row's `updated_at` unchanged. -/
theorem c5_updatedAt_refresh :
    (∀ st : Store, ∀ i now : Nat,
      ∀ r ∈ (markQueueItemProcessing st i now).rows,
        r.id = i → r.updatedAt = now) ∧
    (∀ st : Store, ∀ i now : Nat,
      ∀ r ∈ (markQueueItemCompleted st i now).rows,
        r.id = i → r.updatedAt = now) ∧
    (∀ st : Store, ∀ i now : Nat,
      ∀ r ∈ (markQueueItemFailed st i now).rows,
        r.id = i → r.updatedAt = now) ∧
    (∀ st : Store, ∀ now : Nat,
      (resetStuckQueueItems st now).1.rows.map (fun r => r.updatedAt) =
        st.rows.map (fun r => r.updatedAt)) := by
  refine ⟨?_, ?_, ?_, ?_⟩
  · intro st i now r hr hid
    rcases List.mem_map.mp hr with ⟨r0, hr0, rfl⟩
    by_cases hc : r0.id = i
    · rw [if_pos hc]
      rfl
    · rw [if_neg hc] at hid ⊢
      exact absurd hid hc
  · intro st i now r hr hid
    rcases List.mem_map.mp hr with ⟨r0, hr0, rfl⟩
    by_cases hc : r0.id = i
    · rw [if_pos hc]
      rfl
    · rw [if_neg hc] at hid ⊢
      exact absurd hid hc
  · intro st i now r hr hid
    rcases List.mem_map.mp hr with ⟨r0, hr0, rfl⟩
    by_cases hc : r0.id = i
    · rw [if_pos hc]
      rfl
    · rw [if_neg hc] at hid ⊢
      exact absurd hid hc
  · intro st now
    show (st.rows.map _).map _ = _
    rw [List.map_map]
    refine List.map_congr_left ?_
    intro r _
    show (if decide (stuck now r) = true then _ else r).updatedAt = r.updatedAt
    split <;> rfl

/-- C5 amended witness: marking the `c5Store` task Processing at time
7 refreshes its `updated_at` to 7, and the reset at time 2000 leaves
the row's `updated_at` list unchanged. -/
theorem c5_updatedAt_refresh_witness :
    c5MRow.updatedAt = 7 ∧
    (resetStuckQueueItems c5Store 2000).1.rows.map (fun r => r.updatedAt) =
      c5Store.rows.map (fun r => r.updatedAt) :=
  ⟨c5_updatedAt_refresh.1 c5Store 1 7 c5MRow (by decide) (by decide),
   c5_updatedAt_refresh.2.2.2 c5Store 2000⟩

/-- C7 counterexample.  `MarkQueueItemCompleted` at time 100 leaves
the task Completed with `processed_at = 100`, but a `Cleanup(0)` call
whose current time is the same second 100 (cutoff `= now - 0 days =
100`) deletes *zero* rows and leaves the task in the store, because
the SQL comparison `processed_at < cutoff` is strict.  So "a following
`Cleanup(0)` deletes that task" fails as stated. -/
theorem c7_cleanup_counterexample :
    (markQueueItemCompleted c7Base 1 100).rows.map
        (fun r => (r.status, r.processedAt)) =
      [(QueueStatus.completed, some 100)] ∧
    cleanupOldCompletedItems (markQueueItemCompleted c7Base 1 100) 0 100 =
      (markQueueItemCompleted c7Base 1 100, 0) := by
  decide

/-- C7 amended.  After `MarkQueueItemCompleted i` at time `tc` the
task has status Completed and `processed_at = tc`; a following
`Cleanup(0)` whose current time `tnow` is *strictly later* than `tc`
deletes it (no row with id `i` survives); and re-running
`CleanupOldCompletedItems` with the same arguments on any resulting
store deletes zero additional rows (idempotence). -/
theorem c7_completion_cleanup (st : Store) (i tc tnow : Nat)
    (h : tc < tnow) :
    (∀ r ∈ (markQueueItemCompleted st i tc).rows, r.id = i →
       r.status = QueueStatus.completed ∧ r.processedAt = some tc) ∧
    (∀ r ∈ (cleanupOldCompletedItems
              (markQueueItemCompleted st i tc) 0 tnow).1.rows,
       r.id ≠ i) ∧
    (∀ (st2 : Store) (days now : Nat),
       (cleanupOldCompletedItems
          (cleanupOldCompletedItems st2 days now).1 days now).2 = 0) := by
  refine ⟨?_, ?_, ?_⟩
  · intro r hr hid
    rcases List.mem_map.mp hr with ⟨r0, hr0, rfl⟩
    by_cases hc : r0.id = i
    · rw [if_pos hc]
      exact ⟨rfl, rfl⟩
    · rw [if_neg hc] at hid ⊢
      exact absurd hid hc
  · intro r hr hid
    have hmem := List.mem_filter.mp hr
    have hcp : r.status = QueueStatus.completed ∧ r.processedAt = some tc := by
      rcases List.mem_map.mp hmem.1 with ⟨r0, hr0, heq⟩
      by_cases hc : r0.id = i
      · rw [if_pos hc] at heq
        subst heq
        exact ⟨rfl, rfl⟩
      · rw [if_neg hc] at heq
        subst heq
        exact absurd hid hc
    have hhit : decide (cleanupHit (tnow - 0 * 86400) r) = true := by
      refine decide_eq_true ⟨hcp.1, ?_⟩
      unfold processedBefore
      rw [hcp.2]
      simp only [decide_eq_true_eq]
      omega
    have hneg := hmem.2
    rw [hhit] at hneg
    simp at hneg
  · intro st2 days now
    show ((st2.rows.filter
        (fun r => ! decide (cleanupHit (now - days * 86400) r))).filter
        (fun r => decide (cleanupHit (now - days * 86400) r))).length = 0
    rw [List.length_eq_zero, List.filter_eq_nil_iff]
    intro a ha
    have h2 := (List.mem_filter.mp ha).2
    simp only [Bool.not_eq_true'] at h2
    simp [h2]

/-- C7 amended witness: instantiated at `c7Base`, completion time 100
and cleanup time 101 — the completed row has the expected fields, and
the double-cleanup at the same arguments deletes zero rows. -/
theorem c7_completion_cleanup_witness :
    (c7CRow.status = QueueStatus.completed ∧
      c7CRow.processedAt = some 100) ∧
    (cleanupOldCompletedItems
       (cleanupOldCompletedItems c7Base 0 101).1 0 101).2 = 0 := by
  obtain ⟨h1, h2, h3⟩ := c7_completion_cleanup c7Base 1 100 101 (by decide)
  exact ⟨h1 c7CRow (by decide) (by decide), h3 c7Base 0 101⟩

/-- C8.  `AddToQueue`: on a serialization failure (`mp = none`) it
returns an error and the store is unchanged (no row inserted); on
success it appends exactly one new row — Pending, `attempts = 0`, the
given type and `max_attempts` — and returns that row's id
(`LastInsertId`). -/
theorem c8_enqueue_spec :
    (∀ (st : Store) (ty : String) (maxA : Int) (now : Nat),
       (addToQueue st ty none maxA now).1 = st ∧
       (addToQueue st ty none maxA now).2.isOk = false) ∧
    (∀ (st : Store) (ty pj : String) (maxA : Int) (now : Nat),
       ∃ newRow : QueueItem,
         (addToQueue st ty (some pj) maxA now).1.rows =
           st.rows ++ [newRow] ∧
         newRow.status = QueueStatus.pending ∧
         newRow.attempts = 0 ∧
         newRow.ttype = ty ∧
         newRow.payload = pj ∧
         newRow.maxAttempts = maxA ∧
         newRow.processedAt = none ∧
         newRow.id = st.nextId ∧
         (addToQueue st ty (some pj) maxA now).2 =
           Except.ok newRow.id ∧
         (addToQueue st ty (some pj) maxA now).1.nextId = st.nextId + 1) := by
  constructor
  · intro st ty maxA now
    exact ⟨rfl, rfl⟩
  · intro st ty pj maxA now
    exact ⟨_, rfl, rfl, rfl, rfl, rfl, rfl, rfl, rfl, rfl, rfl⟩

/-- C9 counterexample.  A worker fed a panicking job followed by a
second job starts only the first one and its loop terminates
abnormally: the claim's expected outcome — both jobs executed and the
loop alive — is refuted, because `Pool.worker` contains no
`recover()`. -/
theorem c9_panic_counterexample :
    workerExec [TaskOutcome.panicked, TaskOutcome.ok] = (1, false) ∧
    workerExec [TaskOutcome.panicked, TaskOutcome.ok] ≠ (2, true) := by
  decide

/-- C9 amended.  A job that merely returns an error does not
terminate the worker loop: a panic-free job sequence is executed in
full and the loop ends normally.  But the executor does *not* recover
from panics: a panicking job terminates the worker loop on the spot,
and the jobs submitted after it are never started by that worker. -/
theorem c9_no_panic_recovery (ts pre post : List TaskOutcome) :
    (TaskOutcome.panicked ∉ ts → workerExec ts = (ts.length, true)) ∧
    (TaskOutcome.panicked ∉ pre →
      workerExec (pre ++ TaskOutcome.panicked :: post) =
        (pre.length + 1, false)) := by
  constructor
  · intro h
    induction ts with
    | nil => rfl
    | cons t rest ih =>
        have hne : t ≠ TaskOutcome.panicked := fun he => h (he ▸ List.mem_cons_self t rest)
        have hrest : TaskOutcome.panicked ∉ rest :=
          fun hm => h (List.mem_cons_of_mem t hm)
        cases t with
        | ok => simp [workerExec, ih hrest]
        | err => simp [workerExec, ih hrest]
        | panicked => exact absurd rfl hne
  · intro h
    induction pre with
    | nil => rfl
    | cons t rest ih =>
        have hne : t ≠ TaskOutcome.panicked := fun he => h (he ▸ List.mem_cons_self t rest)
        have hrest : TaskOutcome.panicked ∉ rest :=
          fun hm => h (List.mem_cons_of_mem t hm)
        cases t with
        | ok => simp [workerExec, ih hrest]
        | err => simp [workerExec, ih hrest]
        | panicked => exact absurd rfl hne

/-- C9 amended witness: a two-job error-only sequence runs to
completion; inserting a panicking job after the first job stops the
loop with only two jobs started. -/
theorem c9_no_panic_recovery_witness :
    workerExec [TaskOutcome.ok, TaskOutcome.err] = (2, true) ∧
    workerExec [TaskOutcome.ok, TaskOutcome.panicked, TaskOutcome.err] =
      (2, false) := by
  obtain ⟨h1, h2⟩ :=
    c9_no_panic_recovery [TaskOutcome.ok, TaskOutcome.err]
      [TaskOutcome.ok] [TaskOutcome.err]
  refine ⟨h1 (by decide), ?_⟩
  have := h2 (by decide)
  simpa using this

/-- C10.  Calling `MarkQueueItemProcessing`, `MarkQueueItemCompleted`
or `MarkQueueItemFailed` with an id present on no task leaves the
store exactly as it was: the `UPDATE … WHERE id = ?` matches zero
rows, and `db.Exec` reports no error for a zero-row update (the Go
functions return nil). -/
theorem c10_mark_missing_id (st : Store) (i now : Nat)
    (h : ∀ r ∈ st.rows, r.id ≠ i) :
    markQueueItemProcessing st i now = st ∧
    markQueueItemCompleted st i now = st ∧
    markQueueItemFailed st i now = st := by
  have key : ∀ f : QueueItem → QueueItem,
      st.rows.map (fun r => if r.id = i then f r else r) = st.rows := by
    intro f
    have hcong : ∀ r ∈ st.rows, (if r.id = i then f r else r) = id r := by
      intro r hr
      rw [if_neg (h r hr)]
      rfl
    rw [List.map_congr_left hcong, List.map_id]
  refine ⟨?_, ?_, ?_⟩
  · show Store.mk (st.rows.map fun r =>
      if r.id = i then setProcessing now r else r) st.nextId = st
    rw [key]
  · show Store.mk (st.rows.map fun r =>
      if r.id = i then setCompleted now r else r) st.nextId = st
    rw [key]
  · show Store.mk (st.rows.map fun r =>
      if r.id = i then setFailed now r else r) st.nextId = st
    rw [key]

/-- C10 witness: on the one-task store `c10Store` (whose only id is
1), the three marks with the absent id 2 all leave the store
unchanged. -/
theorem c10_mark_missing_id_witness :
    markQueueItemProcessing c10Store 2 5 = c10Store ∧
    markQueueItemCompleted c10Store 2 5 = c10Store ∧
    markQueueItemFailed c10Store 2 5 = c10Store :=
  c10_mark_missing_id c10Store 2 5 (by decide)
